import Mathlib

/-!
Verification development for the walk-decoding core of
PathNN-for-GenomeAssembly (`utils.py`).

The shallow embedding below translates the source functions:

* `get_paths`        — the recursive path enumerator (utils.py, lines 32-41);
* `get_edlib_best`   — the alignment oracle (utils.py, lines 44-71), with the
  external collaborators (the mappy aligner anchoring, the Biopython
  reverse-complement, the `graph_parser` sequence translation and prefix-length
  lookup, and the edlib edit-distance call) abstracted as fields of an
  environment record `OracleEnv`; scores are rationals;
* `process`          — the walk decoder / trainer (utils.py, lines 108-193).
  The `while True` loop becomes a step function `loopIter` driven by fuel
  (`runLoop`); optimizer interactions (`zero_grad`, `backward`, `step`) and the
  pre-loop GCN embed/classify calls are recorded as an event trace; Python
  exception outcomes (KeyError, IndexError, ZeroDivisionError, and the
  AttributeError raised by calling `.backward()` on the plain integer `0`)
  are explicit error values.

Sequences (reads, the reference, and composite candidate sequences) are
modelled as lists of abstract symbols (`Seq := List Nat`).
-/

namespace PathNN

/-- Sequences (DNA strings in the source) as lists of abstract symbols. -/
abbrev Seq : Type := List Nat

/-- The virtual-pair relation on node ids: `current ^ 1` in the source
(utils.py line 139). -/
def complement (n : Nat) : Nat := n ^^^ 1

/-- Rational division `a / b` (with `a / 0 = 0`, exactly as in `ℚ`), given in
a form the kernel can evaluate; `qdiv_eq_div` below proves it equal to `/`. -/
def qdiv (a b : ℤ) : ℚ := Rat.divInt a b

/-- Rational addition in a form the kernel can evaluate; `qadd_eq_add` below
proves it equal to `+`. -/
def qadd (a b : ℚ) : ℚ :=
  Rat.divInt (a.num * (b.den : ℤ) + b.num * (a.den : ℤ)) ((a.den : ℤ) * (b.den : ℤ))

/-- Python-set insertion (`visited.add(n)`): a no-op when the element is
already present.  The visited set is modelled as the list of its elements in
insertion order; only membership is ever queried. -/
def setAdd (l : List Nat) (n : Nat) : List Nat := if n ∈ l then l else l ++ [n]

/-- The path enumerator `get_paths start neighbors num_nodes` (utils.py lines 32-41).
Paths are built with the start appended at the end of each recursive result
(`path.append(start)`), so they come out deepest-node first; the caller
reverses them. -/
def get_paths (start : Nat) (neighbors : Nat → List Nat) (num_nodes : Nat) :
    List (List Nat) :=
  match num_nodes with
  | 0 => [[start]]
  | n + 1 =>
      (neighbors start).flatMap (fun neighbor =>
        (get_paths neighbor neighbors n).map (fun path => path ++ [start]))

/-- Python's `min(l, key=lambda x: x.1)`: the first element attaining the
minimal key (later elements replace the running best only on a strictly
smaller key). Empty input means the source raises ValueError; here `none`. -/
def minBySnd (l : List (List Nat × ℚ)) : Option (List Nat × ℚ) :=
  match l with
  | [] => none
  | x :: xs => some (xs.foldl (fun acc y => if y.2 < acc.2 then y else acc) x)

/-- External collaborators of the alignment oracle, abstracted as functions:
`anchor` is `anchor(reads, node, aligner)` (utils.py lines 14-19) returning
`(r_st, r_en, strand)`; `translate` is
`graph_parser.translate_nodes_into_sequence2`; `revComp` is Biopython's
`reverse_complement`; `prefixLen u v` is
the prefix_length edge attribute at `find_edge_index(graph, u, v)`;
`editDistance` is the editDistance field of `edlib.align(query, target)` (non-negative
for the default unrestricted alignment task used here); `refSeq` is the
parsed reference sequence. -/
structure OracleEnv where
  anchor : Nat → Nat × Nat × Int
  translate : List Nat → Seq
  revComp : Seq → Seq
  prefixLen : Nat → Nat → Nat
  editDistance : Seq → Seq → Nat
  refSeq : Seq

/-- The `distances` list built by the loop of `get_edlib_best`
(utils.py lines 47-61): for each depth-4 lookahead path (reversed to forward
order), candidates whose first-hop anchor strand differs from the current
node's strand are skipped; each survivor is paired with
`editDistance / (edlib_end - edlib_start)`. -/
def edlib_candidates (env : OracleEnv) (current : Nat)
    (neighbors : Nat → List Nat) : List (List Nat × ℚ) :=
  let ref_start := (env.anchor current).1
  let strand := (env.anchor current).2.2
  let paths := (get_paths current neighbors 4).map List.reverse
  paths.filterMap (fun path =>
    let next_strand := (env.anchor (path.getD 1 0)).2.2
    if next_strand ≠ strand then none
    else
      let sequence := env.translate (path.drop 1)
      let sequence := if strand = -1 then env.revComp sequence else sequence
      let edlib_start := ref_start + env.prefixLen (path.getD 0 0) (path.getD 1 0)
      let edlib_end := edlib_start + sequence.length
      let reference_query := (env.refSeq.drop edlib_start).take (edlib_end - edlib_start)
      let distance := env.editDistance reference_query sequence
      some (path, qdiv (distance : ℤ) ((edlib_end : ℤ) - (edlib_start : ℤ))))

/-- The alignment oracle `get_edlib_best` (utils.py lines 44-71): the first-hop node (`best_path[1]`)
of the minimum-scoring surviving candidate; `None` when the candidate list is
empty (the `min` call raises ValueError, caught at lines 66-71).  The source
also receives `idx` (diagnostics only) and `visited` (unused). -/
def get_edlib_best (env : OracleEnv) (current : Nat)
    (neighbors : Nat → List Nat) : Option Nat :=
  match minBySnd (edlib_candidates env current neighbors) with
  | some best => some (best.1.getD 1 0)
  | none => none

/-- The `torch.topk(actions, k=1)` index: the index of the first occurrence of the
maximal action score. -/
def argmaxAux (i : Nat) (bi : Nat) (bv : ℚ) : List ℚ → Nat
  | [] => bi
  | x :: xs => if bv < x then argmaxAux (i + 1) i x xs else argmaxAux (i + 1) bi bv xs

/-- Index of the first maximal element of an action-score list (the list is
nonempty at every use site: branches have at least two neighbors). -/
def argmaxIdx : List ℚ → Nat
  | [] => 0
  | x :: xs => argmaxAux 1 0 x xs

/-- Observable actions of one `process` call: the pre-loop GCN
embed / classify calls of the model and the optimizer
interactions `optimizer.zero_grad()`, `loss.backward()`, `optimizer.step()`. -/
inductive Event where
  | embedCall : Event
  | classifyCall : Event
  | branchDecision (loss : ℚ) : Event
  | zeroGrad : Event
  | backward (loss : ℚ) : Event
  | optStep : Event
deriving DecidableEq, Repr

/-- Python exception outcomes reachable in `process`. -/
inductive PyErr where
  | keyError (node : Nat) : PyErr
  | indexError : PyErr
  | attributeError : PyErr
  | zeroDivisionError : PyErr
deriving DecidableEq, Repr

/-- The decision model, dispatched by `isinstance` in the source:
a `GCNModel` contributes a fixed per-node action-score table (the result of
the pre-loop embed+classify calls, utils.py lines 129-131), a
`SequentialModel` contributes a step function consuming and producing latent
state (utils.py line 155). `L` is the latent-state type. -/
inductive Model (L : Type) where
  | gcn (scores : Nat → ℚ) : Model L
  | sequential (step : L → (Nat → ℚ) × L) : Model L

/-- Dispatch test `isinstance(model, models.SequentialModel)`. -/
def Model.isSeq {L : Type} : Model L → Bool
  | .gcn _ => false
  | .sequential _ => true

/-- Dispatch test `isinstance(model, models.GCNModel)`. -/
def Model.isGcn {L : Type} : Model L → Bool
  | .gcn _ => true
  | .sequential _ => false

/-- Obtaining the per-node action scores at a branch: the precomputed table
for the GCN model, one `model(graph, latent, device)` step for the sequential
model (utils.py lines 154-156). -/
def modelStep {L : Type} : Model L → L → (Nat → ℚ) × L
  | .gcn scores, l => (scores, l)
  | .sequential f, l => f l

/-- Mutable state of the `while True` loop of `process`
(utils.py lines 119-125 initialisation), plus the recorded event trace.
`totalLoss = none` models the Python variable `total_loss` still holding the
plain integer `0` (no loss was ever added). -/
structure WalkState (L : Type) where
  current : Nat
  visited : List Nat
  walk : List Nat
  lossList : List ℚ
  totalLoss : Option ℚ
  total : Nat
  correct : Nat
  latent : L
  events : List Event
deriving DecidableEq

/-- Inputs of `process` other than the model: graph size, predecessor-map
keys, the adjacency dict (`none` models a missing key, i.e. a Python
KeyError on lookup), the oracle's environment, the loss criterion (the
source's `nn.CrossEntropyLoss()` applied to an action list and a target
index), and the mode string. -/
structure ProcessEnv where
  numNodes : Nat
  predKeys : List Nat
  neighbors : Nat → Option (List Nat)
  oracle : OracleEnv
  criterion : List ℚ → Nat → ℚ
  mode : String

/-- The adjacency dict as a total function, as used by the lookahead
enumeration inside the oracle (missing keys are not exercised there by any
run considered in this development). -/
def nbTotal (env : ProcessEnv) : Nat → List Nat :=
  fun n => (env.neighbors n).getD []

/-- Outcome of one iteration of the `while True` loop. -/
inductive IterOut (L : Type) where
  | next (s : WalkState L) : IterOut L
  | brk (s : WalkState L) : IterOut L
  | err (e : PyErr) (s : WalkState L) : IterOut L

/-- The state carried by an iteration outcome. -/
def IterOut.state {L : Type} : IterOut L → WalkState L
  | .next s => s
  | .brk s => s
  | .err _ s => s

/-- One iteration of the walk loop (utils.py lines 134-184):
append to walk; stop on revisit; mark the node and its virtual pair visited;
KeyError on a missing adjacency entry; dead-end stop; single-neighbor follow;
otherwise a branch: model scores restricted to the neighbors, arg-max choice,
oracle query (stop on `None`), loss on the model's own arg-max index,
counters, teacher forcing, and — for a sequential model in training mode —
an immediate optimization step. -/
def loopIter {L : Type} (model : Model L) (env : ProcessEnv)
    (s : WalkState L) : IterOut L :=
  let s := { s with walk := s.walk ++ [s.current] }
  if s.current ∈ s.visited then .brk s
  else
    let s := { s with
      visited := setAdd (setAdd s.visited s.current) (complement s.current) }
    match env.neighbors s.current with
    | none => .err (.keyError s.current) s
    | some nbrs =>
      if nbrs.length = 0 then .brk s
      else if nbrs.length = 1 then .next { s with current := nbrs.headD 0 }
      else
        let sc := modelStep model s.latent
        let s := { s with latent := sc.2 }
        let actions := nbrs.map sc.1
        let index := argmaxIdx actions
        let choice := nbrs.getD index 0
        match get_edlib_best env.oracle s.current (nbTotal env) with
        | none => .brk s
        | some best =>
          let loss := env.criterion actions index
          .next { s with
            totalLoss := some (qadd (s.totalLoss.getD 0) loss),
            lossList := s.lossList ++ [loss],
            correct := if choice = best then s.correct + 1 else s.correct,
            total := s.total + 1,
            current := best,
            events := s.events ++ [.branchDecision loss] ++
              (if model.isSeq && env.mode = "train" then
                [.zeroGrad, .backward loss, .optStep] else []) }

/-- Result of running the loop to completion. -/
inductive LoopResult (L : Type) where
  | finished (s : WalkState L) : LoopResult L
  | failed (e : PyErr) (s : WalkState L) : LoopResult L
  | outOfFuel : LoopResult L
deriving DecidableEq

/-- Fuel-driven iteration of `loopIter` (the source's `while True`). -/
def runLoop {L : Type} (model : Model L) (env : ProcessEnv) :
    Nat → WalkState L → LoopResult L
  | 0, _ => .outOfFuel
  | fuel + 1, s =>
    match loopIter model env s with
    | .next t => runLoop model env fuel t
    | .brk t => .finished t
    | .err e t => .failed e t

/-- Root candidates `start_nodes = list(set(range(graph.num_nodes())) - set(pred.keys()))`
(utils.py line 112), in ascending id order. -/
def startCandidates (env : ProcessEnv) : List Nat :=
  (List.range env.numNodes).filter (fun n => ¬ n ∈ env.predKeys)

/-- Events emitted before the loop: the GCN model is embedded and classified
once per walk (utils.py lines 129-131). -/
def initEvents {L : Type} (model : Model L) : List Event :=
  match model with
  | .gcn _ => [.embedCall, .classifyCall]
  | .sequential _ => []

/-- Loop state at entry (utils.py lines 119-125). -/
def initState {L : Type} (model : Model L) (start : Nat) (l0 : L) :
    WalkState L :=
  ⟨start, [], [], [], none, 0, 0, l0, initEvents model⟩

/-- The walk-loop phase of `process`: `none` models the IndexError raised by
`start_nodes[0]` when no root candidate exists (utils.py line 113). -/
def processRun {L : Type} (model : Model L) (env : ProcessEnv) (l0 : L)
    (fuel : Nat) : Option (LoopResult L) :=
  match startCandidates env with
  | [] => none
  | start :: _ => some (runLoop model env fuel (initState model start l0))

/-- Result of a whole `process` call. -/
inductive PResult (L : Type) where
  | ok (s : WalkState L) (accuracy : ℚ) : PResult L
  | err (e : PyErr) (events : List Event) : PResult L
  | outOfFuel : PResult L
deriving DecidableEq

/-- Dispatch test of utils.py line 187: a GCN model together with training
mode. -/
def isTrainGcn {L : Type} (model : Model L) (env : ProcessEnv) : Bool :=
  model.isGcn && env.mode = "train"

/-- The accuracy computation `accuracy = correct / total` (utils.py line 192):
ZeroDivisionError when
no branch was ever decided. -/
def finishAcc {L : Type} (s : WalkState L) : PResult L :=
  if s.total = 0 then .err .zeroDivisionError s.events
  else .ok s (qdiv (s.correct : ℤ) (s.total : ℤ))

/-- Post-loop update for the GCN model in training mode
(utils.py lines 187-190): `zero_grad`, then `total_loss.backward()` — which
raises AttributeError when `total_loss` is still the plain integer `0` —
then `optimizer.step()`; finally the accuracy computation. -/
def postLoop {L : Type} (model : Model L) (env : ProcessEnv)
    (s : WalkState L) : PResult L :=
  if isTrainGcn model env then
    match s.totalLoss with
    | none => .err .attributeError (s.events ++ [.zeroGrad])
    | some tl =>
        finishAcc { s with events := s.events ++ [.zeroGrad, .backward tl, .optStep] }
  else finishAcc s

/-- The whole `process` call (utils.py lines 108-193). -/
def process {L : Type} (model : Model L) (env : ProcessEnv) (l0 : L)
    (fuel : Nat) : PResult L :=
  match processRun model env l0 fuel with
  | none => .err .indexError []
  | some (.finished s) => postLoop model env s
  | some (.failed e s) => .err e s.events
  | some .outOfFuel => .outOfFuel

/-- Event trace of a `process` result. -/
def PResult.tracedEvents {L : Type} : PResult L → List Event
  | .ok s _ => s.events
  | .err _ ev => ev
  | .outOfFuel => []

/-- Loss history of a `process` result, when the call returned normally. -/
def PResult.lossListOf {L : Type} : PResult L → Option (List ℚ)
  | .ok s _ => some s.lossList
  | _ => none

/-- Whether a `process` result is a ZeroDivisionError. -/
def PResult.isZeroDiv {L : Type} : PResult L → Bool
  | .err .zeroDivisionError _ => true
  | _ => false

/-- The event trace produced by the walk loop as a function of the per-branch
loss history: the GCN model is embedded and classified once up front and emits
no optimizer events inside the loop, while the sequential model in training
mode performs one full optimizer interaction right after every branch. -/
def evShape {L : Type} (model : Model L) (mode : String) (ls : List ℚ) :
    List Event :=
  match model with
  | .gcn _ => [.embedCall, .classifyCall] ++ ls.map .branchDecision
  | .sequential _ =>
      if mode = "train" then
        ls.flatMap (fun l => [.branchDecision l, .zeroGrad, .backward l, .optStep])
      else ls.map .branchDecision

/-- Loop invariant tying the bookkeeping variables of `process` together:
`total` counts the branch decisions, `total_loss` is the running sum of the
per-branch losses (still the plain integer `0` when no branch happened), and
the event trace has the shape dictated by the model variant and the mode. -/
def Inv {L : Type} (model : Model L) (env : ProcessEnv) (s : WalkState L) :
    Prop :=
  s.total = s.lossList.length ∧
  s.totalLoss = (if s.lossList = [] then none else some s.lossList.sum) ∧
  s.events = evShape model env.mode s.lossList

/-! ### Concrete instances used by witnesses and counterexamples -/

/-- A branching adjacency: node 0 has the two neighbors 2 and 4, each the
head of a chain long enough for the depth-4 lookahead. -/
def exNbA : Nat → Option (List Nat) := fun n =>
  if n = 0 then some [2, 4]
  else if n = 2 then some [6] else if n = 6 then some [8]
  else if n = 8 then some [10] else if n = 10 then some [12]
  else if n = 4 then some [14] else if n = 14 then some [16]
  else if n = 16 then some [18] else if n = 18 then some [20]
  else some []

/-- Oracle collaborators for `exNbA`: every node anchors at reference start 0
on the forward strand, a path translates to itself, and the edit distance is
0 exactly on equal sequences.  The reference window matches the candidate
through node 4, so the oracle selects neighbor 4 at the branch. -/
def exOracleA : OracleEnv :=
  ⟨fun _ => (0, 0, 1), fun p => p, id, fun _ _ => 0,
   fun q s => if q = s then 0 else 1, [4, 14, 16, 18]⟩

/-- Process inputs for the `exNbA` graph: only node 0 has no predecessor,
the criterion reports the target index itself, inference mode. -/
def exEnvA : ProcessEnv :=
  ⟨21, (List.range 21).drop 1, exNbA, exOracleA, fun _ i => (i : ℚ), "eval"⟩

/-- A GCN model preferring node 2 — the opposite of the oracle's choice 4. -/
def exGcnA : Model Unit := .gcn (fun n => if n = 2 then 5 else 1)

/-- A sequential model preferring node 4 — agreeing with the oracle. -/
def exSeqA : Model Unit := .sequential (fun l => (fun n => if n = 4 then 2 else 1, l))

/-- Variant of `exEnvA` in training mode (for the sequential model). -/
def exEnvATrain : ProcessEnv := { exEnvA with mode := "train" }

/-- The final loop state of the sequential training run on `exEnvA`. -/
def exSeqAFinal : WalkState Unit :=
  ⟨20, [0, 1, 4, 5, 14, 15, 16, 17, 18, 19, 20, 21], [0, 4, 14, 16, 18, 20],
   [1], some 1, 1, 1, (), [.branchDecision 1, .zeroGrad, .backward 1, .optStep]⟩

/-- The final loop state of the GCN inference run on `exEnvA`. -/
def exGcnAFinal : WalkState Unit :=
  ⟨20, [0, 1, 4, 5, 14, 15, 16, 17, 18, 19, 20, 21], [0, 4, 14, 16, 18, 20],
   [0], some 0, 1, 0, (), [.embedCall, .classifyCall, .branchDecision 0]⟩

/-- A single isolated node: the walk ends with no branch ever decided. -/
def exEnvB : ProcessEnv :=
  ⟨1, [], fun _ => some [], exOracleA, fun _ i => (i : ℚ), "train"⟩

/-- A two-node linear chain, training mode: again no branch is ever decided. -/
def exEnvC : ProcessEnv :=
  ⟨3, [1, 2], fun n => if n = 0 then some [2] else some [], exOracleA,
   fun _ i => (i : ℚ), "train"⟩

/-- A branching node whose chains are too short for the depth-4 lookahead:
the oracle finds no candidate path at all and returns `none`. -/
def exEnvNone : ProcessEnv :=
  ⟨8, [1, 2, 3, 4, 5, 6, 7],
   fun n => if n = 0 then some [2, 4] else some [], exOracleA,
   fun _ i => (i : ℚ), "eval"⟩

/-- An adjacency with a missing entry: node 3 is not a key of the dict. -/
def exEnvKey : ProcessEnv :=
  ⟨4, [1, 2], fun n => if n = 3 then none else some [3], exOracleA,
   fun _ i => (i : ℚ), "eval"⟩

/-- Inputs whose predecessor map covers the whole id range: no root exists. -/
def exEnvFull : ProcessEnv :=
  ⟨2, [0, 1], fun _ => some [], exOracleA, fun _ i => (i : ℚ), "train"⟩

/-! ### Bridging lemmas for the kernel-computable arithmetic helpers -/

/-- The helper `qdiv` is rational division. -/
theorem qdiv_eq_div (a b : ℤ) : qdiv a b = (a : ℚ) / (b : ℚ) :=
  Rat.divInt_eq_div a b

/-- The helper `qadd` is rational addition. -/
theorem qadd_eq_add (a b : ℚ) : qadd a b = a + b := by
  have hda : ((a.den : ℚ)) ≠ 0 := Nat.cast_ne_zero.mpr a.den_nz
  have hdb : ((b.den : ℚ)) ≠ 0 := Nat.cast_ne_zero.mpr b.den_nz
  unfold qadd
  rw [Rat.divInt_eq_div]
  push_cast
  conv_rhs => rw [← Rat.num_div_den a, ← Rat.num_div_den b]
  rw [div_add_div _ _ hda hdb]
  ring_nf

/-- Membership in a Python-set insertion. -/
theorem mem_setAdd (l : List Nat) (n m : Nat) :
    m ∈ setAdd l n ↔ m ∈ l ∨ m = n := by
  unfold setAdd
  split
  · rename_i hn
    constructor
    · exact fun h => Or.inl h
    · rintro (h | rfl)
      · exact h
      · exact hn
  · simp

/-! ### The first minimum of Python's `min(..., key=...)` -/

/-- The fold underlying `minBySnd` returns the seed or a list element. -/
theorem minBy_foldl_mem (xs : List (List Nat × ℚ)) :
    ∀ a, xs.foldl (fun acc y => if y.2 < acc.2 then y else acc) a = a ∨
      xs.foldl (fun acc y => if y.2 < acc.2 then y else acc) a ∈ xs := by
  induction xs with
  | nil => intro a; simp
  | cons x xs ih =>
      intro a
      simp only [List.foldl_cons]
      rcases ih (if x.2 < a.2 then x else a) with h | h
      · rw [h]
        split
        · exact Or.inr (List.mem_cons_self _ _)
        · exact Or.inl rfl
      · exact Or.inr (List.mem_cons_of_mem _ h)

/-- The fold underlying `minBySnd` minimizes the key. -/
theorem minBy_foldl_le (xs : List (List Nat × ℚ)) :
    ∀ a, (xs.foldl (fun acc y => if y.2 < acc.2 then y else acc) a).2 ≤ a.2 ∧
      ∀ y ∈ xs, (xs.foldl (fun acc y => if y.2 < acc.2 then y else acc) a).2 ≤ y.2 := by
  induction xs with
  | nil => intro a; simp
  | cons x xs ih =>
      intro a
      simp only [List.foldl_cons]
      obtain ⟨h1, h2⟩ := ih (if x.2 < a.2 then x else a)
      have hxa : (if x.2 < a.2 then x else a).2 ≤ a.2 := by
        split
        · rename_i hlt; exact le_of_lt hlt
        · exact le_refl _
      have hxx : (if x.2 < a.2 then x else a).2 ≤ x.2 := by
        split
        · exact le_refl _
        · rename_i hlt; exact le_of_not_lt hlt
      refine ⟨le_trans h1 hxa, ?_⟩
      intro y hy
      rcases List.mem_cons.mp hy with rfl | hy
      · exact le_trans h1 hxx
      · exact h2 y hy

/-- Specification of `minBySnd`: it returns an element of minimal key. -/
theorem minBySnd_spec (l : List (List Nat × ℚ)) (m : List Nat × ℚ)
    (h : minBySnd l = some m) : m ∈ l ∧ ∀ y ∈ l, m.2 ≤ y.2 := by
  match l with
  | [] => simp [minBySnd] at h
  | x :: xs =>
      simp only [minBySnd, Option.some.injEq] at h
      subst h
      constructor
      · rcases minBy_foldl_mem xs x with h | h
        · rw [h]; exact List.mem_cons_self _ _
        · exact List.mem_cons_of_mem _ h
      · intro y hy
        obtain ⟨h1, h2⟩ := minBy_foldl_le xs x
        rcases List.mem_cons.mp hy with rfl | hy
        · exact h1
        · exact h2 y hy

/-- Emptiness case of `minBySnd`: it fails exactly on the empty list. -/
theorem minBySnd_eq_none (l : List (List Nat × ℚ)) :
    minBySnd l = none ↔ l = [] := by
  match l with
  | [] => simp [minBySnd]
  | x :: xs => simp [minBySnd]

/-! ### Claim theorems -/

/-- Auxiliary length fact for `get_paths`: every produced path has exactly
`num_nodes + 1` entries. -/
theorem get_paths_len :
    ∀ (d start : Nat) (nb : Nat → List Nat) (p : List Nat),
      p ∈ get_paths start nb d → p.length = d + 1 := by
  intro d
  induction d with
  | zero =>
      intro start nb p hp
      simp only [get_paths, List.mem_singleton] at hp
      subst hp
      rfl
  | succ n ih =>
      intro start nb p hp
      simp only [get_paths, List.mem_flatMap, List.mem_map] at hp
      obtain ⟨a, _, q, hq, rfl⟩ := hp
      simp [List.length_append, ih a nb q hq]

/-- C6: every path produced by the Path Enumerator at depth `d` has exactly
`d + 1` elements (shorter dead-ended prefixes are never returned), and depth
0 yields exactly `[[start]]`. -/
theorem get_paths_depth_spec :
    (∀ (start : Nat) (nb : Nat → List Nat) (d : Nat) (p : List Nat),
      p ∈ get_paths start nb d → p.length = d + 1) ∧
    (∀ (start : Nat) (nb : Nat → List Nat), get_paths start nb 0 = [[start]]) :=
  ⟨fun start nb d p hp => get_paths_len d start nb p hp,
   fun _ _ => rfl⟩

/-- Witness for C6 on a concrete graph and depth. -/
theorem get_paths_depth_spec_witness :
    [6, 2, 0] ∈ get_paths 0 (nbTotal exEnvA) 2 ∧ [6, 2, 0].length = 2 + 1 :=
  ⟨by decide, get_paths_depth_spec.1 0 (nbTotal exEnvA) 2 [6, 2, 0] (by decide)⟩

/-- Auxiliary: whatever an unvisited-node iteration does afterwards, the
visited set it carries is the one with the node and its virtual pair added. -/
theorem loopIter_visited {L : Type} (model : Model L) (env : ProcessEnv)
    (s : WalkState L) (h : s.current ∉ s.visited) :
    (loopIter model env s).state.visited =
      setAdd (setAdd s.visited s.current) (complement s.current) := by
  unfold loopIter
  simp only [h, if_false]
  split
  · rfl
  · split
    · rfl
    · split
      · rfl
      · split
        · rfl
        · rfl

/-- C7: the virtual-pair relation is an involution, and every loop iteration
that marks its current node visited marks the node's complement in the same
step. -/
theorem complement_involution_and_pair_marking :
    (∀ n : Nat, complement (complement n) = n) ∧
    (∀ (L : Type) (model : Model L) (env : ProcessEnv) (s : WalkState L),
      s.current ∉ s.visited →
      (loopIter model env s).state.visited =
          setAdd (setAdd s.visited s.current) (complement s.current) ∧
        s.current ∈ (loopIter model env s).state.visited ∧
        complement s.current ∈ (loopIter model env s).state.visited) := by
  constructor
  · intro n
    simp [complement, Nat.xor_cancel_right]
  · intro L model env s h
    have hv := loopIter_visited model env s h
    refine ⟨hv, ?_, ?_⟩
    · rw [hv, mem_setAdd, mem_setAdd]
      exact Or.inl (Or.inr rfl)
    · rw [hv, mem_setAdd]
      exact Or.inr rfl

/-- Witness for C7 at a concrete unvisited branch state. -/
theorem complement_involution_and_pair_marking_witness :
    complement (complement 6) = 6 ∧
    ((0 : Nat) ∉ (initState exGcnA 0 ()).visited ∧
      (loopIter exGcnA exEnvA (initState exGcnA 0 ())).state.visited =
        setAdd (setAdd (initState exGcnA 0 ()).visited 0) (complement 0)) :=
  ⟨complement_involution_and_pair_marking.1 6,
   by decide,
   (complement_involution_and_pair_marking.2 Unit exGcnA exEnvA
     (initState exGcnA 0 ()) (by decide)).1⟩

/-- C8: every per-candidate score stored by the Alignment Oracle — the edit
distance divided by the window length `edlib_end - edlib_start` — is
non-negative. -/
theorem candidate_scores_nonneg :
    ∀ (env : OracleEnv) (current : Nat) (nb : Nat → List Nat)
      (c : List Nat × ℚ), c ∈ edlib_candidates env current nb → 0 ≤ c.2 := by
  intro env current nb c hc
  unfold edlib_candidates at hc
  simp only [List.mem_filterMap] at hc
  obtain ⟨path, -, hfn⟩ := hc
  simp at hfn
  obtain ⟨-, rfl⟩ := hfn
  dsimp only
  rw [qdiv_eq_div]
  apply div_nonneg <;> positivity

/-- Witness for C8 at a concrete surviving candidate. -/
theorem candidate_scores_nonneg_witness :
    (([0, 2, 6, 8, 10], qdiv 1 4) : List Nat × ℚ) ∈
        edlib_candidates exOracleA 0 (nbTotal exEnvA) ∧
      0 ≤ (([0, 2, 6, 8, 10], qdiv 1 4) : List Nat × ℚ).2 :=
  ⟨by decide,
   candidate_scores_nonneg exOracleA 0 (nbTotal exEnvA) _ (by decide)⟩

/-- C3: the Alignment Oracle returns the first-hop node (second element) of a
minimum-scoring surviving candidate path, and `none` when no candidate
survives; and when it returns `none` at a branch, that loop iteration ends
the walk at the current node with the loss history unchanged. -/
theorem oracle_min_selection_and_none_terminates :
    (∀ (env : OracleEnv) (cur : Nat) (nb : Nat → List Nat),
      (edlib_candidates env cur nb = [] → get_edlib_best env cur nb = none) ∧
      (edlib_candidates env cur nb ≠ [] →
        ∃ best ∈ edlib_candidates env cur nb,
          (∀ q ∈ edlib_candidates env cur nb, best.2 ≤ q.2) ∧
          get_edlib_best env cur nb = some (best.1.getD 1 0))) ∧
    (∀ (L : Type) (model : Model L) (env : ProcessEnv) (s : WalkState L)
        (nbrs : List Nat) (fuel : Nat),
      s.current ∉ s.visited →
      env.neighbors s.current = some nbrs →
      2 ≤ nbrs.length →
      get_edlib_best env.oracle s.current (nbTotal env) = none →
      ∃ t, runLoop model env (fuel + 1) s = .finished t ∧
        t.lossList = s.lossList ∧ t.walk = s.walk ++ [s.current] ∧
        t.current = s.current ∧ t.total = s.total) := by
  constructor
  · intro env cur nb
    constructor
    · intro hempty
      simp [get_edlib_best, hempty, minBySnd]
    · intro hne
      cases hm : minBySnd (edlib_candidates env cur nb) with
      | none => exact absurd ((minBySnd_eq_none _).mp hm) hne
      | some m =>
          obtain ⟨hmem, hle⟩ := minBySnd_spec _ _ hm
          exact ⟨m, hmem, hle, by simp [get_edlib_best, hm]⟩
  · intro L model env s nbrs fuel h hnb hlen hor
    have h0 : ¬ nbrs.length = 0 := by omega
    have h1 : ¬ nbrs.length = 1 := by omega
    simp only [runLoop, loopIter, h, if_false, hnb, h0, h1, hor]
    exact ⟨_, rfl, rfl, rfl, rfl, rfl⟩

/-- Witness for C3 on a branch whose lookahead produces no candidate. -/
theorem oracle_min_selection_and_none_terminates_witness :
    (edlib_candidates exOracleA 0 (nbTotal exEnvNone) = [] ∧
      get_edlib_best exOracleA 0 (nbTotal exEnvNone) = none) ∧
    ∃ t, runLoop exGcnA exEnvNone (4 + 1) (initState exGcnA 0 ()) = .finished t ∧
      t.lossList = (initState exGcnA 0 ()).lossList ∧
      t.walk = (initState exGcnA 0 ()).walk ++ [(initState exGcnA 0 ()).current] ∧
      t.current = (initState exGcnA 0 ()).current ∧
      t.total = (initState exGcnA 0 ()).total :=
  ⟨⟨by decide,
    (oracle_min_selection_and_none_terminates.1 exOracleA 0 (nbTotal exEnvNone)).1
      (by decide)⟩,
   oracle_min_selection_and_none_terminates.2 Unit exGcnA exEnvNone
     (initState exGcnA 0 ()) [2, 4] 4 (by decide) (by decide) (by decide) (by decide)⟩

/-- C4: at a branch where the oracle names a neighbor, the walk always
advances to the oracle's choice (teacher forcing), `total` is incremented
unconditionally, and `correct` is incremented exactly when the model's
arg-max choice among the neighbors coincides with the oracle's choice. -/
theorem teacher_forcing_and_counters :
    ∀ (L : Type) (model : Model L) (env : ProcessEnv) (s : WalkState L)
      (nbrs : List Nat) (b : Nat),
      s.current ∉ s.visited →
      env.neighbors s.current = some nbrs →
      2 ≤ nbrs.length →
      get_edlib_best env.oracle s.current (nbTotal env) = some b →
      ∃ t, loopIter model env s = .next t ∧
        t.current = b ∧
        t.total = s.total + 1 ∧
        t.correct = (if nbrs.getD (argmaxIdx (nbrs.map (modelStep model s.latent).1)) 0 = b
          then s.correct + 1 else s.correct) := by
  intro L model env s nbrs b h hnb hlen hor
  have h0 : ¬ nbrs.length = 0 := by omega
  have h1 : ¬ nbrs.length = 1 := by omega
  simp only [loopIter, h, if_false, hnb, h0, h1, hor]
  exact ⟨_, rfl, rfl, rfl, rfl⟩

/-- Witness for C4: the oracle picks node 4 while the GCN model's arg-max is
node 2, so the walk still advances to 4 and `correct` stays 0. -/
theorem teacher_forcing_and_counters_witness :
    ∃ t, loopIter exGcnA exEnvA (initState exGcnA 0 ()) = .next t ∧
      t.current = 4 ∧
      t.total = (initState exGcnA 0 ()).total + 1 ∧
      t.correct = (if [2, 4].getD (argmaxIdx ([2, 4].map
          (modelStep exGcnA (initState exGcnA 0 ()).latent).1)) 0 = 4
        then (initState exGcnA 0 ()).correct + 1
        else (initState exGcnA 0 ()).correct) :=
  teacher_forcing_and_counters Unit exGcnA exEnvA (initState exGcnA 0 ())
    [2, 4] 4 (by decide) (by decide) (by decide) (by decide)

/-- C9: a neighbor lookup for a node missing from the adjacency structure is
not recovered: the loop fails with a KeyError naming the offending node, and
`process` surfaces exactly that error to its caller. -/
theorem missing_neighbor_key_aborts :
    (∀ (L : Type) (model : Model L) (env : ProcessEnv) (fuel : Nat)
        (s : WalkState L),
      s.current ∉ s.visited →
      env.neighbors s.current = none →
      runLoop model env (fuel + 1) s = .failed (.keyError s.current)
        { s with walk := s.walk ++ [s.current],
                 visited := setAdd (setAdd s.visited s.current) (complement s.current) }) ∧
    (∀ (L : Type) (model : Model L) (env : ProcessEnv) (l0 : L) (fuel : Nat)
        (e : PyErr) (t : WalkState L),
      processRun model env l0 fuel = some (.failed e t) →
      process model env l0 fuel = .err e t.events) := by
  constructor
  · intro L model env fuel s h hnb
    simp only [runLoop, loopIter, h, if_false, hnb]
  · intro L model env l0 fuel e t hpr
    unfold process
    rw [hpr]

/-- The accuracy computation surfaces the loop's event trace unchanged. -/
theorem tracedEvents_finishAcc {L : Type} (s : WalkState L) :
    (finishAcc s).tracedEvents = s.events := by
  unfold finishAcc
  split <;> rfl

/-- The loop invariant holds at the initial state. -/
theorem inv_initState {L : Type} (model : Model L) (env : ProcessEnv)
    (start : Nat) (l0 : L) : Inv model env (initState model start l0) := by
  cases model <;> simp [Inv, initState, initEvents, evShape]

/-- One loop iteration preserves the invariant. -/
theorem inv_loopIter {L : Type} (model : Model L) (env : ProcessEnv)
    (s : WalkState L) (h : Inv model env s) :
    Inv model env (loopIter model env s).state := by
  obtain ⟨h1, h2, h3⟩ := h
  by_cases hv : s.current ∈ s.visited
  · simp only [loopIter, IterOut.state, hv, if_true]
    exact ⟨h1, h2, h3⟩
  · cases hnb : env.neighbors s.current with
    | none =>
        simp only [loopIter, IterOut.state, hv, if_false, hnb]
        exact ⟨h1, h2, h3⟩
    | some nbrs =>
        by_cases hl0 : nbrs.length = 0
        · simp only [loopIter, IterOut.state, hv, if_false, hnb, hl0, if_true]
          exact ⟨h1, h2, h3⟩
        · by_cases hl1 : nbrs.length = 1
          · simp only [loopIter, IterOut.state, hv, if_false, hnb, hl0, hl1,
              if_true]
            exact ⟨h1, h2, h3⟩
          · cases hor : get_edlib_best env.oracle s.current (nbTotal env) with
            | none =>
                simp only [loopIter, IterOut.state, hv, if_false, hnb, hl0,
                  hl1, hor]
                exact ⟨h1, h2, h3⟩
            | some best =>
                simp only [loopIter, IterOut.state, hv, if_false, hnb, hl0,
                  hl1, hor]
                refine ⟨by simp [h1], ?_, ?_⟩
                · by_cases hls : s.lossList = []
                  · simp [hls, h2, qadd_eq_add]
                  · simp [hls, h2, qadd_eq_add, List.sum_append]
                · rw [h3]
                  cases model with
                  | gcn sc =>
                      simp [evShape, Model.isSeq, List.map_append,
                        List.append_assoc]
                  | sequential f =>
                      by_cases hm : env.mode = "train"
                      · simp [evShape, Model.isSeq, hm, List.flatMap_append,
                          List.append_assoc]
                      · simp [evShape, Model.isSeq, hm, List.map_append,
                          List.append_assoc]

/-- Running the loop from an invariant state to normal completion preserves
the invariant. -/
theorem inv_runLoop {L : Type} (model : Model L) (env : ProcessEnv) :
    ∀ (fuel : Nat) (s t : WalkState L), Inv model env s →
      runLoop model env fuel s = .finished t → Inv model env t := by
  intro fuel
  induction fuel with
  | zero => intro s t h hr; simp [runLoop] at hr
  | succ n ih =>
      intro s t h hr
      have hstep := inv_loopIter model env s h
      cases hli : loopIter model env s with
      | next u =>
          rw [hli] at hstep
          simp only [runLoop, hli] at hr
          exact ih u t hstep hr
      | brk u =>
          rw [hli] at hstep
          simp only [runLoop, hli, LoopResult.finished.injEq] at hr
          subst hr
          exact hstep
      | err e u =>
          simp only [runLoop, hli] at hr
          exact LoopResult.noConfusion hr

/-- The loop phase of `process` ends in an invariant state. -/
theorem inv_processRun {L : Type} (model : Model L) (env : ProcessEnv)
    (l0 : L) (fuel : Nat) (s : WalkState L)
    (h : processRun model env l0 fuel = some (.finished s)) :
    Inv model env s := by
  unfold processRun at h
  cases hs : startCandidates env with
  | nil => rw [hs] at h; exact absurd h (by simp)
  | cons st rest =>
      rw [hs] at h
      simp only [Option.some.injEq] at h
      exact inv_runLoop model env fuel _ s (inv_initState model env st l0) h

/-- Casts for the accuracy ratio. -/
theorem qdiv_natCast (c t : Nat) :
    qdiv (c : ℤ) (t : ℤ) = (c : ℚ) / (t : ℚ) := by
  rw [qdiv_eq_div]
  push_cast
  ring

/-- C2 counterexample: a Graph-Embedding (GCN) model in training mode on a
walk that meets no branch.  The claimed single post-loop optimization step
never happens: `total_loss` is still the plain integer `0`, so the backward
call fails right after `zero_grad`, and no `optStep` is ever performed. -/
theorem gcn_train_zero_branch_no_opt_step :
    process exGcnA exEnvB () 5 =
        .err .attributeError [.embedCall, .classifyCall, .zeroGrad] ∧
      Event.optStep ∉ (process exGcnA exEnvB () 5).tracedEvents := by
  decide

/-- C2 (amended): in training mode the sequential model performs exactly one
optimization step (zero-grad, backward on that loss, step) immediately after
every branch decision and nothing after the loop, while the GCN model
performs no per-branch step and — provided at least one branch was decided —
exactly one post-loop step on the sum of the per-branch losses. -/
theorem update_discipline_amended :
    ∀ (L : Type) (model : Model L) (env : ProcessEnv) (l0 : L) (fuel : Nat)
      (s : WalkState L),
      processRun model env l0 fuel = some (.finished s) →
      (model.isSeq = true → env.mode = "train" →
        (process model env l0 fuel).tracedEvents =
          s.lossList.flatMap
            (fun l => [.branchDecision l, .zeroGrad, .backward l, .optStep])) ∧
      (model.isGcn = true → env.mode = "train" → s.lossList ≠ [] →
        (process model env l0 fuel).tracedEvents =
          [.embedCall, .classifyCall] ++ s.lossList.map .branchDecision ++
            [.zeroGrad, .backward s.lossList.sum, .optStep]) := by
  intro L model env l0 fuel s hpr
  obtain ⟨h1, h2, h3⟩ := inv_processRun model env l0 fuel s hpr
  have hp : process model env l0 fuel = postLoop model env s := by
    unfold process
    rw [hpr]
  constructor
  · intro hseq hm
    cases model with
    | gcn sc => simp [Model.isSeq] at hseq
    | sequential f =>
        have hg : isTrainGcn (.sequential f : Model L) env = false := by
          simp [isTrainGcn, Model.isGcn]
        rw [hp]
        unfold postLoop
        simp only [hg, Bool.false_eq_true, if_false]
        rw [tracedEvents_finishAcc, h3]
        simp [evShape, hm]
  · intro hg hm hne
    cases model with
    | sequential f => simp [Model.isGcn] at hg
    | gcn sc =>
        have hg2 : isTrainGcn (.gcn sc : Model L) env = true := by
          simp [isTrainGcn, Model.isGcn, hm]
        have htl : s.totalLoss = some s.lossList.sum := by
          rw [h2]
          simp [hne]
        rw [hp]
        unfold postLoop
        simp only [hg2, if_true]
        rw [htl, tracedEvents_finishAcc, h3]
        simp [evShape, List.append_assoc]

/-- Witness for C2 on the sequential training run over `exEnvATrain`. -/
theorem update_discipline_amended_witness :
    processRun exSeqA exEnvATrain () 10 = some (.finished exSeqAFinal) ∧
      (process exSeqA exEnvATrain () 10).tracedEvents =
        exSeqAFinal.lossList.flatMap
          (fun l => [.branchDecision l, .zeroGrad, .backward l, .optStep]) :=
  ⟨by decide,
   (update_discipline_amended Unit exSeqA exEnvATrain () 10 exSeqAFinal
     (by decide)).1 (by decide) (by decide)⟩

/-- C5 counterexample: a GCN model in training mode on a linear two-node
chain.  `total` is zero, yet the call does not raise the claimed
division-by-zero: the post-loop backward on the integer loss sum fails
first. -/
theorem divzero_claim_fails_for_gcn_train :
    process exGcnA exEnvC () 5 =
        .err .attributeError [.embedCall, .classifyCall, .zeroGrad] ∧
      (process exGcnA exEnvC () 5).isZeroDiv = false := by
  decide

/-- C5 (amended): a normally terminating walk returns its ordered loss
history with `accuracy = correct / total`; with `total = 0` it raises a
division-by-zero — except for the GCN model in training mode, where the
aggregate backward on the integer `0` fails (attribute error) before the
division is reached. -/
theorem accuracy_and_divzero_amended :
    ∀ (L : Type) (model : Model L) (env : ProcessEnv) (l0 : L) (fuel : Nat)
      (s : WalkState L),
      processRun model env l0 fuel = some (.finished s) →
      (s.total = 0 → isTrainGcn model env = false →
        process model env l0 fuel = .err .zeroDivisionError s.events) ∧
      (s.total = 0 → isTrainGcn model env = true →
        process model env l0 fuel = .err .attributeError (s.events ++ [.zeroGrad])) ∧
      (s.total ≠ 0 → ∃ t, process model env l0 fuel =
          .ok t ((s.correct : ℚ) / (s.total : ℚ)) ∧ t.lossList = s.lossList) := by
  intro L model env l0 fuel s hpr
  obtain ⟨h1, h2, h3⟩ := inv_processRun model env l0 fuel s hpr
  have hp : process model env l0 fuel = postLoop model env s := by
    unfold process
    rw [hpr]
  refine ⟨?_, ?_, ?_⟩
  · intro ht hg
    rw [hp]
    unfold postLoop
    simp only [hg, Bool.false_eq_true, if_false]
    unfold finishAcc
    simp [ht]
  · intro ht hg
    have hls : s.lossList = [] := by
      rw [← List.length_eq_zero, ← h1, ht]
    have htl : s.totalLoss = none := by
      rw [h2]
      simp [hls]
    rw [hp]
    unfold postLoop
    simp only [hg, if_true]
    rw [htl]
  · intro ht
    by_cases hgt : isTrainGcn model env = true
    · have hls : s.lossList ≠ [] := by
        intro hc
        exact ht (by rw [h1, hc]; rfl)
      have htl : s.totalLoss = some s.lossList.sum := by
        rw [h2]
        simp [hls]
      rw [hp]
      unfold postLoop
      simp only [hgt, if_true]
      rw [htl]
      refine ⟨{ s with totalLoss := some s.lossList.sum, events := s.events ++ [Event.zeroGrad, Event.backward s.lossList.sum, Event.optStep] }, ?_, rfl⟩
      unfold finishAcc
      simp only [ht, if_false]
      rw [qdiv_natCast]
    · rw [hp]
      unfold postLoop
      simp only [Bool.not_eq_true] at hgt
      simp only [hgt, Bool.false_eq_true, if_false]
      refine ⟨s, ?_, rfl⟩
      unfold finishAcc
      simp only [ht, if_false]
      rw [qdiv_natCast]

/-- Witness for C5 on the GCN inference run over `exEnvA` (one branch). -/
theorem accuracy_and_divzero_amended_witness :
    processRun exGcnA exEnvA () 10 = some (.finished exGcnAFinal) ∧
      ∃ t, process exGcnA exEnvA () 10 =
          .ok t ((exGcnAFinal.correct : ℚ) / (exGcnAFinal.total : ℚ)) ∧
        t.lossList = exGcnAFinal.lossList :=
  ⟨by decide,
   (accuracy_and_divzero_amended Unit exGcnA exEnvA () 10 exGcnAFinal
     (by decide)).2.2 (by decide)⟩

/-- C1: at the one branch of `exEnvA` the oracle selects node 4 (index 1 in
the neighbor ordering `[2, 4]`), the model's arg-max is node 2 (index 0), and
the recorded step loss is the criterion applied to the model's own arg-max
index (value 0), not to the oracle-selected neighbor's index (value 1): the
code passes `index` from `torch.topk` as the cross-entropy target instead of
the oracle's index. -/
theorem process_loss_targets_model_own_argmax :
    get_edlib_best exOracleA 0 (nbTotal exEnvA) = some 4 ∧
      [2, 4].getD (argmaxIdx [5, 1]) 0 = 2 ∧
      [2, 4].getD 1 0 = 4 ∧
      (process exGcnA exEnvA () 10).lossListOf =
        some [exEnvA.criterion [5, 1] (argmaxIdx [5, 1])] ∧
      exEnvA.criterion [5, 1] (argmaxIdx [5, 1]) = 0 ∧
      exEnvA.criterion [5, 1] 1 = 1 := by
  decide

/-- C10: when every id of the graph's range is a key of the predecessor map,
root selection fails with an IndexError before any traversal, scoring, or
model invocation (the event trace is empty). -/
theorem no_root_candidates_index_error :
    ∀ (L : Type) (model : Model L) (env : ProcessEnv) (l0 : L) (fuel : Nat),
      (∀ n ∈ List.range env.numNodes, n ∈ env.predKeys) →
      process model env l0 fuel = .err .indexError [] := by
  intro L model env l0 fuel h
  have hsc : startCandidates env = [] := by
    unfold startCandidates
    rw [List.filter_eq_nil_iff]
    intro a ha
    simp [h a ha]
  simp [process, processRun, hsc]

/-- Witness for C10 on a fully covered two-node id range. -/
theorem no_root_candidates_index_error_witness :
    process exGcnA exEnvFull () 3 = .err .indexError [] :=
  no_root_candidates_index_error Unit exGcnA exEnvFull () 3 (by decide)

/-- Witness for C9: node 3 is missing from the adjacency of `exEnvKey`. -/
theorem missing_neighbor_key_aborts_witness :
    runLoop exGcnA exEnvKey (0 + 1)
        (⟨3, [0, 1], [0], [], none, 0, 0, (), [.embedCall, .classifyCall]⟩ :
          WalkState Unit) =
      .failed (.keyError 3)
        ⟨3, [0, 1, 3, 2], [0, 3], [], none, 0, 0, (), [.embedCall, .classifyCall]⟩ ∧
    process exGcnA exEnvKey () 5 = .err (.keyError 3) [.embedCall, .classifyCall] :=
  ⟨missing_neighbor_key_aborts.1 Unit exGcnA exEnvKey 0 _ (by decide) (by decide),
   missing_neighbor_key_aborts.2 Unit exGcnA exEnvKey () 5 (.keyError 3)
     ⟨3, [0, 1, 3, 2], [0, 3], [], none, 0, 0, (), [.embedCall, .classifyCall]⟩
     (by decide)⟩

end PathNN
